import Mathlib

/-!
# WUPOS cashier: transaction accumulation and settlement

A shallow embedding of `src/WUPOS/src/cashier/app.js`.

The script keeps one global `currentTransaction` and mutates it from event
handlers.  Here every handler is a function from the old transaction to the
new one; the DOM work (`updateCartDisplay`, `showNotification`, focus) does
not write the transaction and is left out, except for `toFixed(2)`, which is
what the cashier reads.

Numbers: a JavaScript number is a `JSNum`, either a rational, one of the two
infinities, or NaN.  Two readings of the arithmetic are given.  `JSNum.add`
and `JSNum.mul` are the operators in exact arithmetic, used where a property
is stated in exact arithmetic or does not depend on rounding.  `JSNum.add64`
and `JSNum.mul64` are the operators as the machine computes them, with the
result rounded to binary64; the section `Binary64` holds the totals
computation under them.
-/

namespace WUPOS

/-! ## Numbers -/

/-- A JavaScript number with exact finite values.  `nan` also stands for the
value `undefined` read from a missing numeric property: every arithmetic
use of it in the script converts it to NaN. -/
inductive JSNum where
  | nan
  | fin (q : ℚ)
  | posInf
  | negInf
  deriving DecidableEq

namespace JSNum

/-- The `+` operator on numbers in exact arithmetic: the sum before it is
rounded to binary64 (for the rounded operator see `JSNum.add64`). -/
def add : JSNum → JSNum → JSNum
  | nan, _ => nan
  | _, nan => nan
  | fin a, fin b => fin (a + b)
  | posInf, negInf => nan
  | negInf, posInf => nan
  | posInf, _ => posInf
  | _, posInf => posInf
  | negInf, _ => negInf
  | _, negInf => negInf

/-- Unary minus. -/
def neg : JSNum → JSNum
  | nan => nan
  | fin a => fin (-a)
  | posInf => negInf
  | negInf => posInf

/-- The `-` operator on numbers. -/
def sub (a b : JSNum) : JSNum := add a (neg b)

/-- An infinity of the given sign (`true` is positive). -/
def inf (positive : Bool) : JSNum := if positive then posInf else negInf

/-- The product of an infinity of the given sign with a finite value. -/
def infTimes (positive : Bool) (b : ℚ) : JSNum :=
  if b = 0 then nan else if 0 < b then inf positive else inf (!positive)

/-- The `*` operator on numbers in exact arithmetic: the product before it
is rounded to binary64 (for the rounded operator see `JSNum.mul64`). -/
def mul : JSNum → JSNum → JSNum
  | nan, _ => nan
  | _, nan => nan
  | fin a, fin b => fin (a * b)
  | posInf, fin b => infTimes true b
  | negInf, fin b => infTimes false b
  | fin a, posInf => infTimes true a
  | fin a, negInf => infTimes false a
  | posInf, posInf => posInf
  | negInf, negInf => posInf
  | posInf, negInf => negInf
  | negInf, posInf => negInf

/-- The `>=` operator on numbers: false as soon as one side is NaN. -/
def ge : JSNum → JSNum → Bool
  | nan, _ => false
  | _, nan => false
  | fin a, fin b => decide (b ≤ a)
  | posInf, _ => true
  | _, negInf => true
  | _, _ => false

/-- The `<` operator on numbers: false as soon as one side is NaN. -/
def lt : JSNum → JSNum → Bool
  | nan, _ => false
  | _, nan => false
  | fin a, fin b => decide (a < b)
  | posInf, _ => false
  | _, negInf => false
  | _, _ => true

end JSNum

/-! ## Data model -/

/-- A value handed to `addItemToCart` as `product`, seen through the two
properties the script reads.  `name = none` is a missing `name`; a missing
`price` is `JSNum.nan`. -/
structure Product where
  name : Option String
  price : JSNum
  deriving DecidableEq

/-- One element of `currentTransaction.items`. -/
structure Item where
  barcode : String
  name : Option String
  price : JSNum
  quantity : ℕ
  deriving DecidableEq

/-- The object held in `currentTransaction`. -/
structure Transaction where
  items : List Item
  subtotal : JSNum
  tax : JSNum
  total : JSNum
  deriving DecidableEq

/-- The initial value of `currentTransaction` (lines 4-9), which is also the
object literal `clearTransaction` assigns (lines 223-228). -/
def currentTransaction : Transaction :=
  { items := [], subtotal := .fin 0, tax := .fin 0, total := .fin 0 }

/-! ## Cart operations -/

/-- The callback of the `reduce` in `calculateTotals`: `sum + item.price * item.quantity`. -/
def lineStep (sum : JSNum) (item : Item) : JSNum :=
  sum.add (item.price.mul (.fin item.quantity))

/-- The value of `items.reduce((sum, item) => sum + item.price * item.quantity, 0)`. -/
def subtotalOf (items : List Item) : JSNum :=
  items.foldl lineStep (.fin 0)

/-- The literal `0.085` of line 126. -/
def taxRate : JSNum := .fin (85 / 1000)

/-- Rewrite of `calculateTotals` (lines 120-128). -/
def calculateTotals (t : Transaction) : Transaction :=
  let subtotal := subtotalOf t.items
  let tax := subtotal.mul taxRate
  { items := t.items, subtotal := subtotal, tax := tax, total := subtotal.add tax }

/-- The effect of `existingItem.quantity += 1` where `existingItem` is what
`items.find(item => item.barcode === barcode)` returned: the first element
with that barcode is updated in place. -/
def bumpFirst (barcode : String) : List Item → List Item
  | [] => []
  | item :: rest =>
    if item.barcode = barcode then
      { item with quantity := item.quantity + 1 } :: rest
    else
      item :: bumpFirst barcode rest

/-- Rewrite of `addItemToCart` (lines 98-118). -/
def addItemToCart (t : Transaction) (barcode : String) (product : Product) : Transaction :=
  match t.items.find? (fun item => decide (item.barcode = barcode)) with
  | some _ =>
    calculateTotals { t with items := bumpFirst barcode t.items }
  | none =>
    calculateTotals { t with items := t.items ++
      [{ barcode := barcode, name := product.name, price := product.price, quantity := 1 }] }

/-- Rewrite of `removeItem` (lines 156-160). -/
def removeItem (t : Transaction) (barcode : String) : Transaction :=
  calculateTotals { t with items := t.items.filter (fun item => decide (item.barcode ≠ barcode)) }

/-- Rewrite of `clearTransaction` (lines 222-231). -/
def clearTransaction (_t : Transaction) : Transaction :=
  { items := [], subtotal := .fin 0, tax := .fin 0, total := .fin 0 }

/-- Rewrite of `completeTransaction` (lines 212-220): log, then clear. -/
def completeTransaction (t : Transaction) : Transaction :=
  clearTransaction t

/-! ## Built-in string and number conversions

Only the parts of the language library that the script calls.  They work on
the character list of a string. -/

/-- The white space and line terminator characters that `parseInt` and
`parseFloat` skip at the start of their argument. -/
def isStrWhiteSpaceChar (c : Char) : Bool :=
  let n := c.toNat
  n = 0x09 || n = 0x0A || n = 0x0B || n = 0x0C || n = 0x0D || n = 0x20 || n = 0xA0 ||
  n = 0x1680 || (0x2000 ≤ n && n ≤ 0x200A) || n = 0x2028 || n = 0x2029 || n = 0x202F ||
  n = 0x205F || n = 0x3000 || n = 0xFEFF

/-- Is the character one of `0`..`9`. -/
def isDecimalDigit (c : Char) : Bool := 48 ≤ c.toNat && c.toNat ≤ 57

/-- The value of a hexadecimal digit, if the character is one. -/
def hexDigitValue (c : Char) : Option ℕ :=
  let n := c.toNat
  if 48 ≤ n ∧ n ≤ 57 then some (n - 48)
  else if 97 ≤ n ∧ n ≤ 102 then some (n - 87)
  else if 65 ≤ n ∧ n ≤ 70 then some (n - 55)
  else none

/-- The number written by a list of digits in the given radix. -/
def digitsValue (radix : ℕ) (ds : List Char) : ℕ :=
  ds.foldl (fun acc c => acc * radix + (hexDigitValue c).getD 0) 0

/-- Does the list `s` start with the list `p`. -/
def startsWith : List Char → List Char → Bool
  | _, [] => true
  | [], _ :: _ => false
  | c :: s, d :: p => c = d && startsWith s p

/-- The check `haystack.includes(needle)`: `needle` occurs as a contiguous run. -/
def includesChars : List Char → List Char → Bool
  | [], needle => needle.isEmpty
  | c :: hay, needle => startsWith (c :: hay) needle || includesChars hay needle

/-- The method `String.prototype.includes`. -/
def includes (haystack needle : String) : Bool :=
  includesChars haystack.data needle.data

/-- The digits-and-radix part of `parseInt`, after white space and sign are
removed: a `0x` or `0X` start selects radix 16, and the longest run of
digits of the radix is read; no digit gives NaN. -/
def parseIntMagnitude (s : List Char) : Option ℕ :=
  match s with
  | '0' :: 'x' :: rest | '0' :: 'X' :: rest =>
    let z := rest.takeWhile (fun c => (hexDigitValue c).isSome)
    if z.isEmpty then none else some (digitsValue 16 z)
  | _ =>
    let z := s.takeWhile isDecimalDigit
    if z.isEmpty then none else some (digitsValue 10 z)

/-- The function `parseInt` with no radix argument, on a string. -/
def parseIntChars (s : List Char) : JSNum :=
  let s := s.dropWhile isStrWhiteSpaceChar
  let (negative, s) := match s with
    | '-' :: rest => (true, rest)
    | '+' :: rest => (false, rest)
    | _ => (false, s)
  match parseIntMagnitude s with
  | none => .nan
  | some n => .fin (if negative then -(n : ℚ) else (n : ℚ))

/-- The call `parseInt(x)` where `x` is what `prompt` returned: the typed
text, or `null` (here `none`) when the dialog was cancelled.  The argument
is first converted to a string, and `null` becomes the text `null`. -/
def parseInt (x : Option String) : JSNum :=
  match x with
  | none => parseIntChars "null".data
  | some s => parseIntChars s.data

/-- The exponent part of a decimal literal at the start of `s`, if one is
there: `e` or `E`, an optional sign, and at least one digit. -/
def exponentPart (s : List Char) : Option ℤ :=
  match s with
  | c :: rest =>
    if c = 'e' ∨ c = 'E' then
      let (negative, rest) := match rest with
        | '-' :: r => (true, r)
        | '+' :: r => (false, r)
        | _ => (false, rest)
      let ds := rest.takeWhile isDecimalDigit
      if ds.isEmpty then none
      else some (if negative then -(digitsValue 10 ds : ℤ) else (digitsValue 10 ds : ℤ))
    else none
  | [] => none

/-- The value of mantissa digits `intDigits . fracDigits` followed by the
exponent part found at the start of `rest`. -/
def decimalValue (intDigits fracDigits rest : List Char) : ℚ :=
  let mantissa : ℚ := (digitsValue 10 intDigits : ℚ) +
    (digitsValue 10 fracDigits : ℚ) / (10 : ℚ) ^ fracDigits.length
  mantissa * (10 : ℚ) ^ ((exponentPart rest).getD 0)

/-- The unsigned part of `parseFloat`: the longest start of `s` that is
`Infinity` or a decimal literal, as a number; NaN when there is none. -/
def parseUnsignedDecimal (s : List Char) : JSNum :=
  if startsWith s "Infinity".data then .posInf
  else
    let intDigits := s.takeWhile isDecimalDigit
    let afterInt := s.dropWhile isDecimalDigit
    match afterInt with
    | '.' :: afterDot =>
      let fracDigits := afterDot.takeWhile isDecimalDigit
      if intDigits.isEmpty && fracDigits.isEmpty then .nan
      else .fin (decimalValue intDigits fracDigits (afterDot.dropWhile isDecimalDigit))
    | _ =>
      if intDigits.isEmpty then .nan
      else .fin (decimalValue intDigits [] afterInt)

/-- The function `parseFloat` on a string. -/
def parseFloat (s : String) : JSNum :=
  match s.data.dropWhile isStrWhiteSpaceChar with
  | '-' :: rest => (parseUnsignedDecimal rest).neg
  | '+' :: rest => parseUnsignedDecimal rest
  | rest => parseUnsignedDecimal rest

/-- The decimal digits of `n`, padded on the left with zeros to at least
three characters, with a point before the last two. -/
def fixed2Digits (n : ℕ) : String :=
  let m := (Nat.repr n).data
  let m := List.replicate (3 - m.length) '0' ++ m
  String.mk (m.take (m.length - 2) ++ '.' :: m.drop (m.length - 2))

/-- The method call `x.toFixed(2)`.  A finite value is rounded to the
nearest hundredth, a tie going to the larger magnitude.  At `10^21` and
above the method switches to the exponent form of the nearest double, which
is not rendered here: the result is `none`. -/
def toFixed2 : JSNum → Option String
  | .nan => some "NaN"
  | .posInf => some "Infinity"
  | .negInf => some "-Infinity"
  | .fin x =>
    if (10 : ℚ) ^ 21 ≤ |x| then none
    else
      let n := ⌊|x| * 100 + 1 / 2⌋.toNat
      some ((if x < 0 then "-" else "") ++ fixed2Digits n)

/-! ## The product catalog as an object -/

/-- A value of the `productDatabase` literal. -/
structure CatalogEntry where
  name : String
  price : ℚ
  deriving DecidableEq

/-- The entry as the `product` argument of `addItemToCart`. -/
def CatalogEntry.toProduct (e : CatalogEntry) : Product :=
  { name := some e.name, price := .fin e.price }

/-- The object literal `productDatabase` (lines 12-17), its properties in
the order they are written. -/
def productDatabase : List (String × CatalogEntry) :=
  [("123456789", { name := "Coffee Mug", price := 12.99 }),
   ("987654321", { name := "T-Shirt", price := 24.99 }),
   ("456789123", { name := "Notebook", price := 8.50 }),
   ("789123456", { name := "Pen", price := 2.99 })]

/-- First value stored under `key` in an association list. -/
def assoc {α : Type} (key : String) : List (String × α) → Option α
  | [] => none
  | (k, v) :: rest => if k = key then some v else assoc key rest

/-- The array index a property key denotes, if it is one: the canonical
decimal text of an integer below `2^32 - 1`. -/
def arrayIndex (key : String) : Option ℕ :=
  let cs := key.data
  if cs.isEmpty || !cs.all isDecimalDigit then none
  else if cs.length > 1 && cs.head? = some '0' then none
  else if digitsValue 10 cs < 4294967295 then some (digitsValue 10 cs) else none

/-- Insert an indexed property into a list kept in ascending index order. -/
def insertIndexed {α : Type} (x : ℕ × String × α) : List (ℕ × String × α) → List (ℕ × String × α)
  | [] => [x]
  | y :: rest => if x.1 ≤ y.1 then x :: y :: rest else y :: insertIndexed x rest

/-- The properties whose key is an array index, in ascending index order. -/
def indexedProperties {α : Type} : List (String × α) → List (ℕ × String × α)
  | [] => []
  | (k, v) :: rest =>
    match arrayIndex k with
    | some i => insertIndexed (i, k, v) (indexedProperties rest)
    | none => indexedProperties rest

/-- The result of `Object.entries(o)` for an object with the given own
properties: array-index keys first, in ascending numeric order, then the
other keys in the order they were created. -/
def objectEntries {α : Type} (o : List (String × α)) : List (String × α) :=
  (indexedProperties o).map (fun x => x.2) ++ o.filter (fun kv => (arrayIndex kv.1).isNone)

/-- The string-keyed properties a plain object inherits from
`Object.prototype`, each seen through `.name` and `.price`.  All are
functions, named as shown and without a `price`, except `__proto__`, whose
getter returns the prototype object, which has neither property. -/
def objectPrototype : List (String × Product) :=
  [("constructor", { name := some "Object", price := .nan }),
   ("hasOwnProperty", { name := some "hasOwnProperty", price := .nan }),
   ("isPrototypeOf", { name := some "isPrototypeOf", price := .nan }),
   ("propertyIsEnumerable", { name := some "propertyIsEnumerable", price := .nan }),
   ("toLocaleString", { name := some "toLocaleString", price := .nan }),
   ("toString", { name := some "toString", price := .nan }),
   ("valueOf", { name := some "valueOf", price := .nan }),
   ("__defineGetter__", { name := some "__defineGetter__", price := .nan }),
   ("__defineSetter__", { name := some "__defineSetter__", price := .nan }),
   ("__lookupGetter__", { name := some "__lookupGetter__", price := .nan }),
   ("__lookupSetter__", { name := some "__lookupSetter__", price := .nan }),
   ("__proto__", { name := none, price := .nan })]

/-- The value of the expression `productDatabase[barcode]`: the own
property if there is one, else the inherited one, else `undefined`
(`none`).  Every value found is an object or a function, hence truthy. -/
def productDatabaseGet (barcode : String) : Option Product :=
  match assoc barcode productDatabase with
  | some e => some e.toProduct
  | none => assoc barcode objectPrototype

/-! ## Lookup handlers -/

/-- Rewrite of `processBarcode` (lines 72-80). -/
def processBarcode (t : Transaction) (barcode : String) : Transaction :=
  match productDatabaseGet barcode with
  | some product => addItemToCart t barcode product
  | none => t

/-- The element `products[i]` of an array for a number `i`: defined when
`i` is a non-negative integer below the length. -/
def elementAt {α : Type} (xs : List α) : JSNum → Option α
  | .fin q => if q.den = 1 ∧ 0 ≤ q.num then xs[q.num.toNat]? else none
  | _ => none

/-- Rewrite of `showProductSelection` (lines 266-280).  `selection` is what
`prompt` returned.  Reading a missing element makes the destructuring throw
before anything is written, so that case leaves the transaction as it is. -/
def showProductSelection (t : Transaction) (products : List (String × CatalogEntry))
    (selection : Option String) : Transaction :=
  let selectedIndex := (parseInt selection).sub (.fin 1)
  if selectedIndex.ge (.fin 0) && selectedIndex.lt (.fin products.length) then
    match elementAt products selectedIndex with
    | some (barcode, product) => addItemToCart t barcode product.toProduct
    | none => t
  else t

/-- The array `foundProducts` of `searchProduct` (lines 83-85).  The
argument `toLowerCase` is the method `String.prototype.toLowerCase`. -/
def foundProducts (toLowerCase : String → String) (searchTerm : String) :
    List (String × CatalogEntry) :=
  (objectEntries productDatabase).filter
    (fun kv => includes (toLowerCase kv.2.name) (toLowerCase searchTerm))

/-- Rewrite of `searchProduct` (lines 82-96).  `selection` is the answer to
the `prompt` of `showProductSelection`, read only when it is shown. -/
def searchProduct (toLowerCase : String → String) (t : Transaction) (searchTerm : String)
    (selection : Option String) : Transaction :=
  let found := foundProducts toLowerCase searchTerm
  if found.length = 1 then
    match found with
    | (barcode, product) :: _ => addItemToCart t barcode product.toProduct
    | [] => t
  else if found.length > 1 then
    showProductSelection t found selection
  else t

/-- Lower-casing of the letters `A`..`Z`, which is what `toLowerCase` does
on text without other cased letters. -/
def asciiLowerCase (s : String) : String :=
  String.mk (s.data.map (fun c => if 65 ≤ c.toNat ∧ c.toNat ≤ 90 then Char.ofNat (c.toNat + 32) else c))

/-! ## Settlement -/

/-- How `processCashPayment` ends: the success notification carries the
change, the failure one reads `Insufficient cash amount`. -/
inductive CashResult where
  | success (change : JSNum)
  | failure
  deriving DecidableEq

/-- Rewrite of `processCashPayment` (lines 183-192).  `amountReceived` is
what `prompt` returned: `none` for a cancelled dialog.  The test
`amountReceived && ...` fails on `null` and on the empty text. -/
def processCashPayment (t : Transaction) (total : JSNum) (amountReceived : Option String) :
    Transaction × CashResult :=
  match amountReceived with
  | some text =>
    if text ≠ "" ∧ (parseFloat text).ge total = true then
      (completeTransaction t, .success ((parseFloat text).sub total))
    else (t, .failure)
  | none => (t, .failure)

/-- A callback handed to `setTimeout` by a card or mobile settlement, with
its delay in milliseconds and the `total` it closed over. -/
structure Timer where
  delay : ℕ
  total : JSNum
  deriving DecidableEq

/-- The state of the page between two events: the transaction and the
settlement callbacks that are scheduled and have not run. -/
structure Session where
  transaction : Transaction
  pending : List Timer
  deriving DecidableEq

/-- The state when the page is loaded. -/
def Session.initial : Session := { transaction := currentTransaction, pending := [] }

/-- Rewrite of `processCardPayment` (lines 194-201): schedule the completion. -/
def processCardPayment (s : Session) (total : JSNum) : Session :=
  { s with pending := s.pending ++ [{ delay := 2000, total := total }] }

/-- Rewrite of `processMobilePayment` (lines 203-210): schedule the completion. -/
def processMobilePayment (s : Session) (total : JSNum) : Session :=
  { s with pending := s.pending ++ [{ delay := 3000, total := total }] }

/-- Rewrite of `processPayment` (lines 162-181).  `amountReceived` is the
answer to the cash `prompt`, read only on the cash branch. -/
def processPayment (s : Session) (method : String) (amountReceived : Option String) : Session :=
  if s.transaction.items.length = 0 then s
  else
    let total := s.transaction.total
    if method = "cash" then
      { s with transaction := (processCashPayment s.transaction total amountReceived).1 }
    else if method = "card" then processCardPayment s total
    else if method = "mobile" then processMobilePayment s total
    else s

/-- The run of the scheduled callback at position `i` of the pending list
(lines 197-200 and 206-209): it leaves the list and `completeTransaction`
runs.  Nothing happens when there is no such callback. -/
def fireTimer (s : Session) (i : ℕ) : Session :=
  match s.pending[i]? with
  | some _ => { transaction := completeTransaction s.transaction, pending := s.pending.eraseIdx i }
  | none => s

/-- The events of the page that touch the transaction. -/
inductive Event where
  | addItemToCart (barcode : String) (product : Product)
  | removeItem (barcode : String)
  | processPayment (method : String) (amountReceived : Option String)
  | timeout (i : ℕ)

/-- One event handled to completion. -/
def Session.step (s : Session) : Event → Session
  | .addItemToCart barcode product =>
    { s with transaction := addItemToCart s.transaction barcode product }
  | .removeItem barcode => { s with transaction := removeItem s.transaction barcode }
  | .processPayment method amountReceived => processPayment s method amountReceived
  | .timeout i => fireTimer s i

/-- The state after a sequence of events, from the initial one. -/
def Session.run (events : List Event) : Session :=
  events.foldl Session.step Session.initial

/-- The three operations that write the cart, as data. -/
inductive CartOp where
  | addItemToCart (barcode : String) (product : Product)
  | removeItem (barcode : String)
  | clearTransaction

/-- One cart operation applied to a transaction. -/
def CartOp.apply (t : Transaction) : CartOp → Transaction
  | .addItemToCart barcode product => WUPOS.addItemToCart t barcode product
  | .removeItem barcode => WUPOS.removeItem t barcode
  | .clearTransaction => WUPOS.clearTransaction t

/-- The transaction reached from the initial empty one by a sequence of
cart operations. -/
def reach (ops : List CartOp) : Transaction :=
  ops.foldl CartOp.apply currentTransaction

/-! ## Binary64 arithmetic

The script computes with binary64 numbers: each `+` and `*` returns the
exact result rounded to the nearest representable value, ties to the even
mantissa.  The definitions of this section are `calculateTotals`,
`addItemToCart` and `processBarcode` again, with these rounded operators in
place of the exact ones and with every decimal literal of the source rounded
the same way. -/

/-- Bring a non-negative `m` into the range `2^52 ≤ m < 2^53` by halving or
doubling, counting the binary exponent in `e`; doubling stops at the
exponent `-1074` of the subnormal numbers. -/
def scaleToMantissa : ℕ → ℚ → ℤ → ℚ × ℤ
  | 0, m, e => (m, e)
  | fuel + 1, m, e =>
    if (2 : ℚ) ^ 53 ≤ m then scaleToMantissa fuel (m / 2) (e + 1)
    else if m < (2 : ℚ) ^ 52 ∧ -1074 < e then scaleToMantissa fuel (m * 2) (e - 1)
    else (m, e)

/-- The integer nearest to `m`, a tie going to the even one. -/
def roundHalfEven (m : ℚ) : ℤ :=
  let f := ⌊m⌋
  if m - f < 1 / 2 then f
  else if 1 / 2 < m - f then f + 1
  else if f % 2 = 0 then f else f + 1

/-- The binary64 value nearest to the rational `x`, ties to even: 53 bits
of mantissa, exponents down to `-1074`, and an infinity when the rounded
magnitude reaches `2^1024`. -/
def round64 (x : ℚ) : JSNum :=
  let (m, e) := scaleToMantissa 2200 |x| 0
  let y : ℚ := (roundHalfEven m : ℚ) * (2 : ℚ) ^ e
  if (2 : ℚ) ^ 1024 ≤ y then (if 0 < x then .posInf else .negInf)
  else .fin (if 0 < x then y else -y)

/-- An exact result as the binary64 number the machine stores. -/
def JSNum.round : JSNum → JSNum
  | .fin q => round64 q
  | x => x

/-- The `+` operator on binary64 numbers. -/
def JSNum.add64 (a b : JSNum) : JSNum := (a.add b).round

/-- The `*` operator on binary64 numbers. -/
def JSNum.mul64 (a b : JSNum) : JSNum := (a.mul b).round

namespace Binary64

/-- The callback of the `reduce` in `calculateTotals` (line 122).  A
quantity is an integer, exact in binary64 below `2^53`. -/
def lineStep (sum : JSNum) (item : Item) : JSNum :=
  sum.add64 (item.price.mul64 (.fin item.quantity))

/-- The value of the `reduce` of lines 121-123. -/
def subtotalOf (items : List Item) : JSNum :=
  items.foldl lineStep (.fin 0)

/-- The literal `0.085` of line 126, as stored. -/
def taxRate : JSNum := round64 (85 / 1000)

/-- Rewrite of `calculateTotals` (lines 120-128). -/
def calculateTotals (t : Transaction) : Transaction :=
  let subtotal := subtotalOf t.items
  let tax := subtotal.mul64 taxRate
  { items := t.items, subtotal := subtotal, tax := tax, total := subtotal.add64 tax }

/-- Rewrite of `addItemToCart` (lines 98-118). -/
def addItemToCart (t : Transaction) (barcode : String) (product : Product) : Transaction :=
  match t.items.find? (fun item => decide (item.barcode = barcode)) with
  | some _ =>
    calculateTotals { t with items := bumpFirst barcode t.items }
  | none =>
    calculateTotals { t with items := t.items ++
      [{ barcode := barcode, name := product.name, price := product.price, quantity := 1 }] }

/-- The value of `productDatabase[barcode]`, the price literal of an own
entry rounded to binary64. -/
def productDatabaseGet (barcode : String) : Option Product :=
  match assoc barcode productDatabase with
  | some e => some { name := some e.name, price := round64 e.price }
  | none => assoc barcode objectPrototype

/-- Rewrite of `processBarcode` (lines 72-80). -/
def processBarcode (t : Transaction) (barcode : String) : Transaction :=
  match productDatabaseGet barcode with
  | some product => addItemToCart t barcode product
  | none => t

/-- The cart after one scan of the Coffee Mug on the empty cart. -/
def mugCart : Transaction := processBarcode currentTransaction "123456789"

end Binary64

/-! ## Spec-side quantities -/

/-- The unit price of a line as a rational, `0` when it is not a finite number. -/
def Item.priceValue (item : Item) : ℚ :=
  match item.price with
  | .fin p => p
  | _ => 0

/-- The sum over the items of unit price times quantity, in exact arithmetic. -/
def sumOfLines (items : List Item) : ℚ :=
  (items.map (fun item => item.priceValue * (item.quantity : ℚ))).sum

/-- Every line carries a finite number as its price. -/
def FinitePrices (items : List Item) : Prop :=
  ∀ item ∈ items, ∃ p : ℚ, item.price = .fin p

/-- The derived fields of a transaction are those `calculateTotals` computes
from its items. -/
def Fresh (t : Transaction) : Prop :=
  t.subtotal = subtotalOf t.items ∧
  t.tax = t.subtotal.mul taxRate ∧
  t.total = t.subtotal.add t.tax

/-! ## The carts of the worked scenarios -/

/-- The 12.99 product of the scenario, as scanned. -/
def coffeeMug : Product := { name := some "Coffee Mug", price := .fin 12.99 }

/-- The 8.50 product of the scenario, as scanned. -/
def notebook : Product := { name := some "Notebook", price := .fin 8.50 }

/-- The 2.99 product, as scanned. -/
def pen : Product := { name := some "Pen", price := .fin 2.99 }

/-- The scenario: the 12.99 item twice under one barcode, then the 8.50 item once. -/
def scenarioOps : List CartOp :=
  [.addItemToCart "123456789" coffeeMug, .addItemToCart "123456789" coffeeMug,
   .addItemToCart "456789123" notebook]

/-- The cart the scenario ends with. -/
def scenarioCart : Transaction := reach scenarioOps

/-- A cart holding one Pen. -/
def penCart : Transaction := reach [.addItemToCart "789123456" pen]

/-- The state with the Pen in the cart and a card settlement under way. -/
def cardPendingSession : Session :=
  Session.run [.addItemToCart "789123456" pen, .processPayment "card" none]

/-! ## Basic facts -/

theorem calculateTotals_items (t : Transaction) : (calculateTotals t).items = t.items := rfl

theorem calculateTotals_fresh (t : Transaction) : Fresh (calculateTotals t) :=
  ⟨rfl, rfl, rfl⟩

theorem currentTransaction_fresh : Fresh currentTransaction := by
  refine ⟨rfl, ?_, ?_⟩ <;> simp [currentTransaction, taxRate, JSNum.mul, JSNum.add]

theorem CartOp.apply_fresh (t : Transaction) (op : CartOp) :
    Fresh (CartOp.apply t op) := by
  cases op with
  | addItemToCart b p =>
    show Fresh (WUPOS.addItemToCart t b p)
    unfold WUPOS.addItemToCart
    split <;> exact calculateTotals_fresh _
  | removeItem b => exact calculateTotals_fresh _
  | clearTransaction => exact currentTransaction_fresh

theorem foldl_apply_fresh (ops : List CartOp) :
    ∀ t, Fresh t → Fresh (ops.foldl CartOp.apply t) := by
  induction ops with
  | nil => intro t h; exact h
  | cons op ops ih => intro t h; exact ih _ (CartOp.apply_fresh t op)

theorem foldl_lineStep_fin (items : List Item) (h : FinitePrices items) :
    ∀ a : ℚ, items.foldl lineStep (.fin a) = .fin (a + sumOfLines items) := by
  induction items with
  | nil => intro a; simp [sumOfLines]
  | cons item rest ih =>
    intro a
    obtain ⟨p, hp⟩ := h item (List.mem_cons_self _ _)
    have hrest : FinitePrices rest := fun x hx => h x (List.mem_cons_of_mem _ hx)
    simp only [List.foldl_cons, lineStep, hp, JSNum.mul, JSNum.add]
    rw [ih hrest]
    simp [sumOfLines, Item.priceValue, hp, add_assoc]

theorem subtotalOf_fin (items : List Item) (h : FinitePrices items) :
    subtotalOf items = .fin (sumOfLines items) := by
  unfold subtotalOf
  rw [foldl_lineStep_fin items h 0, zero_add]

/-! ## Lists of items -/

theorem find?_barcode_eq_none (items : List Item) (b : String) :
    items.find? (fun item => decide (item.barcode = b)) = none ↔ ∀ x ∈ items, x.barcode ≠ b := by
  simp [List.find?_eq_none]

theorem addItemToCart_items_absent (t : Transaction) (b : String) (p : Product)
    (h : ∀ x ∈ t.items, x.barcode ≠ b) :
    (addItemToCart t b p).items =
      t.items ++ [{ barcode := b, name := p.name, price := p.price, quantity := 1 }] := by
  unfold addItemToCart
  rw [(find?_barcode_eq_none t.items b).2 h]
  rfl

theorem addItemToCart_items_present (t : Transaction) (b : String) (p : Product)
    (h : ∃ x ∈ t.items, x.barcode = b) :
    (addItemToCart t b p).items = bumpFirst b t.items := by
  unfold addItemToCart
  split
  · rfl
  · rename_i hnone
    obtain ⟨x, hx, hxb⟩ := h
    exact absurd hxb ((find?_barcode_eq_none t.items b).1 hnone x hx)

theorem bumpFirst_split (b : String) (pre : List Item) (it : Item) (post : List Item)
    (hpre : ∀ x ∈ pre, x.barcode ≠ b) (hit : it.barcode = b) :
    bumpFirst b (pre ++ it :: post) = pre ++ { it with quantity := it.quantity + 1 } :: post := by
  induction pre with
  | nil => simp [bumpFirst, hit]
  | cons x pre ih =>
    have hx : x.barcode ≠ b := hpre x (List.mem_cons_self _ _)
    have hrest : ∀ y ∈ pre, y.barcode ≠ b := fun y hy => hpre y (List.mem_cons_of_mem _ hy)
    simp [bumpFirst, hx, ih hrest]

theorem exists_first_with_barcode (b : String) (items : List Item)
    (h : ∃ x ∈ items, x.barcode = b) :
    ∃ pre it post, items = pre ++ it :: post ∧ it.barcode = b ∧ ∀ x ∈ pre, x.barcode ≠ b := by
  induction items with
  | nil => obtain ⟨x, hx, _⟩ := h; cases hx
  | cons y rest ih =>
    by_cases hy : y.barcode = b
    · exact ⟨[], y, rest, rfl, hy, fun x hx => by cases hx⟩
    · obtain ⟨x, hx, hxb⟩ := h
      have hxrest : x ∈ rest := by
        rcases List.mem_cons.1 hx with rfl | hmem
        · exact absurd hxb hy
        · exact hmem
      obtain ⟨pre, it, post, hsplit, hit, hpre⟩ := ih ⟨x, hxrest, hxb⟩
      refine ⟨y :: pre, it, post, by rw [hsplit]; rfl, hit, ?_⟩
      intro z hz
      rcases List.mem_cons.1 hz with rfl | hmem
      · exact hy
      · exact hpre z hmem

theorem bumpFirst_barcodes (b : String) (items : List Item) :
    (bumpFirst b items).map Item.barcode = items.map Item.barcode := by
  induction items with
  | nil => rfl
  | cons x rest ih =>
    unfold bumpFirst
    split
    · rfl
    · simp [ih]

theorem filter_barcode_ne_of_absent (b : String) (items : List Item)
    (h : ∀ x ∈ items, x.barcode ≠ b) :
    items.filter (fun item => decide (item.barcode ≠ b)) = items := by
  rw [List.filter_eq_self]
  intro x hx
  simpa using h x hx

theorem addItemToCart_barcodes_nodup (t : Transaction) (b : String) (p : Product)
    (h : (t.items.map Item.barcode).Nodup) :
    ((addItemToCart t b p).items.map Item.barcode).Nodup := by
  by_cases hb : ∃ x ∈ t.items, x.barcode = b
  · rw [addItemToCart_items_present t b p hb, bumpFirst_barcodes]
    exact h
  · have habs : ∀ x ∈ t.items, x.barcode ≠ b := fun x hx hxb => hb ⟨x, hx, hxb⟩
    rw [addItemToCart_items_absent t b p habs, List.map_append, List.nodup_append]
    refine ⟨h, List.nodup_singleton _, ?_⟩
    intro c hc hc2
    simp only [List.map_cons, List.map_nil, List.mem_singleton] at hc2
    obtain ⟨x, hx, hxc⟩ := List.mem_map.1 hc
    exact habs x hx (hxc.trans hc2)

theorem removeItem_barcodes_nodup (t : Transaction) (b : String)
    (h : (t.items.map Item.barcode).Nodup) :
    ((removeItem t b).items.map Item.barcode).Nodup :=
  h.sublist ((List.filter_sublist t.items).map Item.barcode)

theorem foldl_apply_nodup (ops : List CartOp) :
    ∀ t, (t.items.map Item.barcode).Nodup →
      ((ops.foldl CartOp.apply t).items.map Item.barcode).Nodup := by
  induction ops with
  | nil => intro t h; exact h
  | cons op ops ih =>
    intro t h
    apply ih
    cases op with
    | addItemToCart b p => exact addItemToCart_barcodes_nodup t b p h
    | removeItem b => exact removeItem_barcodes_nodup t b h
    | clearTransaction => exact List.nodup_nil

/-! ## The scenario cart -/

theorem scenarioCart_eq :
    scenarioCart =
      { items := [{ barcode := "123456789", name := some "Coffee Mug", price := .fin 12.99, quantity := 2 },
                  { barcode := "456789123", name := some "Notebook", price := .fin 8.50, quantity := 1 }],
        subtotal := .fin 34.48, tax := .fin 2.9308, total := .fin 37.4108 } := by
  simp [scenarioCart, scenarioOps, reach, CartOp.apply, addItemToCart, currentTransaction,
    calculateTotals, bumpFirst, subtotalOf, lineStep, JSNum.add, JSNum.mul, coffeeMug, notebook,
    taxRate]
  norm_num

theorem scenarioCart_finitePrices : FinitePrices scenarioCart.items := by
  rw [scenarioCart_eq]
  intro item hitem
  simp only [List.mem_cons, List.mem_singleton, List.not_mem_nil, or_false] at hitem
  rcases hitem with rfl | rfl
  · exact ⟨12.99, rfl⟩
  · exact ⟨8.50, rfl⟩

/-! ## Claims -/

/-- C1: in every transaction reached from the initial empty one by
`addItemToCart`, `removeItem` and `clearTransaction`, the subtotal is the
sum over the items of price times quantity, the tax is the subtotal times
0.085 and the total is subtotal plus tax; with numeric prices these are the
exact rational sums.  The scenario cart has subtotal 34.48, tax 2.9308 and
total 37.4108. -/
theorem reach_derived_fields_fresh (ops : List CartOp) :
    (reach ops).subtotal = subtotalOf (reach ops).items ∧
    (reach ops).tax = (reach ops).subtotal.mul taxRate ∧
    (reach ops).total = (reach ops).subtotal.add (reach ops).tax ∧
    (FinitePrices (reach ops).items →
      (reach ops).subtotal = .fin (sumOfLines (reach ops).items) ∧
      (reach ops).tax = .fin (sumOfLines (reach ops).items * 0.085) ∧
      (reach ops).total =
        .fin (sumOfLines (reach ops).items + sumOfLines (reach ops).items * 0.085)) ∧
    (reach scenarioOps).subtotal = .fin 34.48 ∧
    (reach scenarioOps).tax = .fin 2.9308 ∧
    (reach scenarioOps).total = .fin 37.4108 := by
  have hfresh : Fresh (reach ops) :=
    foldl_apply_fresh ops currentTransaction currentTransaction_fresh
  obtain ⟨h1, h2, h3⟩ := hfresh
  have hs : reach scenarioOps = scenarioCart := rfl
  refine ⟨h1, h2, h3, ?_, ?_, ?_, ?_⟩
  · intro hfin
    have hsub : (reach ops).subtotal = .fin (sumOfLines (reach ops).items) := by
      rw [h1]; exact subtotalOf_fin _ hfin
    have htax : (reach ops).tax = .fin (sumOfLines (reach ops).items * 0.085) := by
      rw [h2, hsub]; simp only [taxRate, JSNum.mul]; norm_num
    refine ⟨hsub, htax, ?_⟩
    rw [h3, hsub, htax]; rfl
  · rw [hs, scenarioCart_eq]
  · rw [hs, scenarioCart_eq]
  · rw [hs, scenarioCart_eq]

/-- The exact-sum part of C1 at the scenario cart, whose prices are numbers. -/
theorem reach_derived_fields_fresh_witness :
    FinitePrices (reach scenarioOps).items ∧
    (reach scenarioOps).subtotal = .fin (sumOfLines (reach scenarioOps).items) ∧
    (reach scenarioOps).tax = .fin (sumOfLines (reach scenarioOps).items * 0.085) ∧
    (reach scenarioOps).total =
      .fin (sumOfLines (reach scenarioOps).items + sumOfLines (reach scenarioOps).items * 0.085) :=
  ⟨scenarioCart_finitePrices,
    (reach_derived_fields_fresh scenarioOps).2.2.2.1 scenarioCart_finitePrices⟩

/-- C2: in every transaction reached from the initial empty one by
`addItemToCart`, `removeItem` and `clearTransaction` no two line items
share a barcode; two calls of `addItemToCart` with one barcode on the empty
cart leave exactly one line, with quantity 2. -/
theorem reach_barcodes_nodup (ops : List CartOp) :
    ((reach ops).items.map Item.barcode).Nodup ∧
    ∀ (b : String) (p q : Product),
      (addItemToCart (addItemToCart currentTransaction b p) b q).items =
        [{ barcode := b, name := p.name, price := p.price, quantity := 2 }] := by
  refine ⟨foldl_apply_nodup ops currentTransaction List.nodup_nil, ?_⟩
  intro b p q
  simp [addItemToCart, currentTransaction, calculateTotals, bumpFirst]

/-- C3: if some line has barcode `b`, `addItemToCart` adds one to the
quantity of the first such line, keeps its barcode, name and price, and
keeps every other line and the order; if no line has barcode `b`, the new
items are the old ones followed by the one line made of `b`, the name and
price of the product, and quantity 1. -/
theorem addItemToCart_items (t : Transaction) (b : String) (p : Product) :
    ((∃ x ∈ t.items, x.barcode = b) →
      ∃ pre it post, t.items = pre ++ it :: post ∧ it.barcode = b ∧
        (∀ x ∈ pre, x.barcode ≠ b) ∧
        (addItemToCart t b p).items =
          pre ++ { barcode := it.barcode, name := it.name, price := it.price,
                   quantity := it.quantity + 1 } :: post) ∧
    ((∀ x ∈ t.items, x.barcode ≠ b) →
      (addItemToCart t b p).items =
        t.items ++ [{ barcode := b, name := p.name, price := p.price, quantity := 1 }]) := by
  refine ⟨?_, addItemToCart_items_absent t b p⟩
  intro h
  obtain ⟨pre, it, post, hsplit, hit, hpre⟩ := exists_first_with_barcode b t.items h
  refine ⟨pre, it, post, hsplit, hit, hpre, ?_⟩
  rw [addItemToCart_items_present t b p h, hsplit]
  exact bumpFirst_split b pre it post hpre hit

/-- C3 at the scenario cart: a third scan of the mug barcode, and a first scan of the Pen. -/
theorem addItemToCart_items_witness :
    (∃ pre it post, scenarioCart.items = pre ++ it :: post ∧ it.barcode = "123456789" ∧
        (∀ x ∈ pre, x.barcode ≠ "123456789") ∧
        (addItemToCart scenarioCart "123456789" pen).items =
          pre ++ { barcode := it.barcode, name := it.name, price := it.price,
                   quantity := it.quantity + 1 } :: post) ∧
    (addItemToCart scenarioCart "789123456" pen).items =
      scenarioCart.items ++
        [{ barcode := "789123456", name := pen.name, price := pen.price, quantity := 1 }] :=
  ⟨(addItemToCart_items scenarioCart "123456789" pen).1
      ⟨{ barcode := "123456789", name := some "Coffee Mug", price := .fin 12.99, quantity := 2 },
        by rw [scenarioCart_eq]; simp, rfl⟩,
    (addItemToCart_items scenarioCart "789123456" pen).2
      (by rw [scenarioCart_eq]; simp)⟩

/-- C4: `removeItem` keeps exactly the lines whose barcode differs from
`b`, in their order: a line is in the result if and only if it was there
with another barcode, and the result is a sublist of the old items.  With
no line of barcode `b` the items are unchanged; with one such line, that
line is gone whatever its quantity and the others stay in order; and
subtotal, tax and total are those computed from the items that remain. -/
theorem removeItem_items (t : Transaction) (b : String) :
    ((∀ x ∈ t.items, x.barcode ≠ b) → (removeItem t b).items = t.items) ∧
    (∀ pre it post, t.items = pre ++ it :: post → it.barcode = b →
      (∀ x ∈ pre, x.barcode ≠ b) → (∀ x ∈ post, x.barcode ≠ b) →
      (removeItem t b).items = pre ++ post) ∧
    (∀ x, x ∈ (removeItem t b).items ↔ x ∈ t.items ∧ x.barcode ≠ b) ∧
    (removeItem t b).items.Sublist t.items ∧
    (removeItem t b).items = t.items.filter (fun x => decide (x.barcode ≠ b)) ∧
    (removeItem t b).subtotal = subtotalOf (removeItem t b).items ∧
    (removeItem t b).tax = (removeItem t b).subtotal.mul taxRate ∧
    (removeItem t b).total = (removeItem t b).subtotal.add (removeItem t b).tax := by
  refine ⟨?_, ?_, ?_, List.filter_sublist t.items, rfl, rfl, rfl, rfl⟩
  · intro h
    exact filter_barcode_ne_of_absent b t.items h
  · intro pre it post hsplit hit hpre hpost
    show t.items.filter (fun x => decide (x.barcode ≠ b)) = pre ++ post
    rw [hsplit, List.filter_append, List.filter_cons, filter_barcode_ne_of_absent b pre hpre,
      filter_barcode_ne_of_absent b post hpost]
    simp [hit]
  · intro x
    show x ∈ t.items.filter (fun x => decide (x.barcode ≠ b)) ↔ _
    simp [List.mem_filter]

/-- C4 at the scenario cart: removing the mug line, of quantity 2, leaves
the Notebook line; removing a barcode that is not there changes nothing. -/
theorem removeItem_items_witness :
    (removeItem scenarioCart "789123456").items = scenarioCart.items ∧
    (removeItem scenarioCart "123456789").items =
      [] ++ [{ barcode := "456789123", name := some "Notebook", price := .fin 8.50, quantity := 1 }] :=
  ⟨(removeItem_items scenarioCart "789123456").1 (by rw [scenarioCart_eq]; simp),
    (removeItem_items scenarioCart "123456789").2.1 []
      { barcode := "123456789", name := some "Coffee Mug", price := .fin 12.99, quantity := 2 }
      [{ barcode := "456789123", name := some "Notebook", price := .fin 8.50, quantity := 1 }]
      (by rw [scenarioCart_eq]; rfl) rfl (by simp) (by simp)⟩

/-! ## Selection and tender -/

theorem parseFloat_empty : parseFloat "" = .nan := by rfl

theorem elementAt_natCast {α : Type} (xs : List α) (n : ℕ) :
    elementAt xs (.fin (n : ℚ)) = xs[n]? := by
  simp [elementAt]

theorem showProductSelection_of_index (t : Transaction) (products : List (String × CatalogEntry))
    (selection : Option String) (k : ℕ) (hk1 : 1 ≤ k) (hkn : k ≤ products.length)
    (hp : parseInt selection = .fin k) (c : String × CatalogEntry)
    (hc : products[k - 1]? = some c) :
    showProductSelection t products selection = addItemToCart t c.1 c.2.toProduct := by
  have hq : (k : ℚ) + -1 = ((k - 1 : ℕ) : ℚ) := by
    rw [Nat.cast_sub hk1]; simp [sub_eq_add_neg]
  have hlt : ((k - 1 : ℕ) : ℚ) < (products.length : ℚ) := by
    exact_mod_cast (by omega : k - 1 < products.length)
  unfold showProductSelection
  simp only [hp, JSNum.sub, JSNum.neg, JSNum.add, hq, JSNum.ge, JSNum.lt, elementAt_natCast, hc]
  simp [hlt]

theorem showProductSelection_of_invalid (t : Transaction)
    (products : List (String × CatalogEntry)) (selection : Option String)
    (h : ¬ ∃ k : ℕ, 1 ≤ k ∧ k ≤ products.length ∧ parseInt selection = .fin k) :
    showProductSelection t products selection = t := by
  unfold showProductSelection
  cases hp : parseInt selection with
  | nan => simp [JSNum.sub, JSNum.neg, JSNum.add, JSNum.ge]
  | posInf => simp [JSNum.sub, JSNum.neg, JSNum.add, JSNum.ge, JSNum.lt]
  | negInf => simp [JSNum.sub, JSNum.neg, JSNum.add, JSNum.ge, JSNum.lt]
  | fin r =>
    simp only [JSNum.sub, JSNum.neg, JSNum.add]
    split
    · cases he : elementAt products (.fin (r + -1)) with
      | none => rfl
      | some c =>
        exfalso
        apply h
        simp only [elementAt] at he
        split at he
        · rename_i hden
          obtain ⟨hden1, hnum⟩ := hden
          have hlen : (r + -1).num.toNat < products.length := by
            rcases List.getElem?_eq_some.1 he with ⟨hl, _⟩
            exact hl
          have hr : ((r + -1).num : ℚ) = r + -1 := Rat.coe_int_num_of_den_eq_one hden1
          have hnat : (((r + -1).num.toNat : ℤ)) = (r + -1).num := Int.toNat_of_nonneg hnum
          refine ⟨(r + -1).num.toNat + 1, by omega, by omega, ?_⟩
          have hcast : (((r + -1).num.toNat : ℤ) : ℚ) = r + -1 := by rw [hnat, hr]
          rw [hp]
          congr 1
          push_cast at hcast ⊢
          linarith
        · cases he
    · rfl

theorem parseFloat_forty : parseFloat "40.00" = .fin 40 := by decide!

theorem parseFloat_thirty : parseFloat "30.00" = .fin 30 := by decide!

theorem objectEntries_productDatabase :
    objectEntries productDatabase =
      [("123456789", { name := "Coffee Mug", price := 12.99 }),
       ("456789123", { name := "Notebook", price := 8.50 }),
       ("789123456", { name := "Pen", price := 2.99 }),
       ("987654321", { name := "T-Shirt", price := 24.99 })] := by
  rfl

/-- C5: `processCashPayment` succeeds exactly when the answer is a text
whose `parseFloat` value is at least the total (for finite numbers the
rational order); then the change is that value minus the total and the
transaction is the empty one with zero subtotal, tax and total; in every
other case (no answer, empty or non-numeric text, smaller amount) the
transaction is returned as it was.  With total 37.41 a tender of 40.00
succeeds with change 2.59, and a tender of 30.00 fails and keeps the two
lines of the cart. -/
theorem processCashPayment_outcome (t : Transaction) (total : JSNum)
    (amountReceived : Option String) :
    ((∃ change, (processCashPayment t total amountReceived).2 = .success change) ↔
      ∃ text, amountReceived = some text ∧ (parseFloat text).ge total = true) ∧
    (∀ text, amountReceived = some text → (parseFloat text).ge total = true →
      processCashPayment t total amountReceived =
        ({ items := [], subtotal := .fin 0, tax := .fin 0, total := .fin 0 },
         .success ((parseFloat text).sub total))) ∧
    ((¬ ∃ text, amountReceived = some text ∧ (parseFloat text).ge total = true) →
      processCashPayment t total amountReceived = (t, .failure)) ∧
    (∀ x y : ℚ, (JSNum.fin x).ge (.fin y) = true ↔ y ≤ x) ∧
    (∀ x y : ℚ, (JSNum.fin x).sub (.fin y) = .fin (x - y)) ∧
    (∀ x : JSNum, JSNum.nan.ge x = false) ∧
    processCashPayment scenarioCart (.fin 37.41) (some "40.00") =
      (currentTransaction, .success (.fin 2.59)) ∧
    processCashPayment scenarioCart (.fin 37.41) (some "30.00") = (scenarioCart, .failure) ∧
    scenarioCart.items.length = 2 := by
  have hsucc : ∀ text, amountReceived = some text → (parseFloat text).ge total = true →
      processCashPayment t total amountReceived =
        ({ items := [], subtotal := .fin 0, tax := .fin 0, total := .fin 0 },
         .success ((parseFloat text).sub total)) := by
    intro text htext hge
    have hne : text ≠ "" := by
      rintro rfl
      rw [parseFloat_empty] at hge
      simp [JSNum.ge] at hge
    subst htext
    simp [processCashPayment, hne, hge, completeTransaction, clearTransaction]
  have hfail : (¬ ∃ text, amountReceived = some text ∧ (parseFloat text).ge total = true) →
      processCashPayment t total amountReceived = (t, .failure) := by
    intro hno
    cases amountReceived with
    | none => rfl
    | some text =>
      have hge : ¬ (parseFloat text).ge total = true := fun hge => hno ⟨text, rfl, hge⟩
      simp [processCashPayment, hge]
  refine ⟨⟨?_, ?_⟩, hsucc, hfail, ?_, ?_, ?_, ?_, ?_, ?_⟩
  · rintro ⟨change, hchange⟩
    by_contra hno
    rw [hfail hno] at hchange
    cases hchange
  · rintro ⟨text, htext, hge⟩
    exact ⟨_, by rw [hsucc text htext hge]⟩
  · intro x y
    simp [JSNum.ge]
  · intro x y
    simp [JSNum.sub, JSNum.neg, JSNum.add, sub_eq_add_neg]
  · intro x
    cases x <;> rfl
  · have hne : ("40.00" : String) ≠ "" := by decide
    simp only [processCashPayment, parseFloat_forty, JSNum.ge, JSNum.sub, JSNum.neg, JSNum.add,
      completeTransaction, clearTransaction, currentTransaction]
    norm_num [hne]
  · simp only [processCashPayment, parseFloat_thirty, JSNum.ge]
    norm_num
  · rw [scenarioCart_eq]
    rfl

/-- C5 at the scenario cart: 40.00 against 37.41 succeeds, and nothing
against it (a cancelled dialog) fails. -/
theorem processCashPayment_outcome_witness :
    processCashPayment scenarioCart (.fin 37.41) (some "40.00") =
      ({ items := [], subtotal := .fin 0, tax := .fin 0, total := .fin 0 },
       .success ((parseFloat "40.00").sub (.fin 37.41))) ∧
    processCashPayment scenarioCart (.fin 37.41) none = (scenarioCart, .failure) :=
  ⟨(processCashPayment_outcome scenarioCart (.fin 37.41) (some "40.00")).2.1 "40.00" rfl
      (by rw [parseFloat_forty]; simp [JSNum.ge]; norm_num),
    (processCashPayment_outcome scenarioCart (.fin 37.41) none).2.2.1
      (by rintro ⟨text, htext, _⟩; cases htext)⟩

theorem processBarcode_of_catalog_key (t : Transaction) (id : String) (e : CatalogEntry)
    (h : assoc id productDatabase = some e) :
    processBarcode t id = addItemToCart t id e.toProduct := by
  simp [processBarcode, productDatabaseGet, h]

theorem processBarcode_of_unknown (t : Transaction) (id : String)
    (h : assoc id productDatabase = none) (hproto : assoc id objectPrototype = none) :
    processBarcode t id = t := by
  simp [processBarcode, productDatabaseGet, h, hproto]

/-- C6, at the input `constructor`: it is not a key of the catalog, yet
`productDatabase[barcode]` finds the inherited member of that name, the
test `if (product)` passes, and `processBarcode` appends a line without a
price, which turns subtotal, tax and total into NaN. -/
theorem processBarcode_inherited_key :
    assoc "constructor" productDatabase = none ∧
    processBarcode currentTransaction "constructor" =
      { items := [{ barcode := "constructor", name := some "Object", price := .nan, quantity := 1 }],
        subtotal := .nan, tax := .nan, total := .nan } ∧
    processBarcode currentTransaction "constructor" ≠ currentTransaction := by
  refine ⟨by decide, by rfl, ?_⟩
  intro h
  have hitems := congrArg Transaction.items h
  exact absurd hitems (by
    show [({ barcode := "constructor", name := some "Object", price := .nan, quantity := 1 } : Item)] ≠ []
    simp)

/-- C7: with the candidates taken from the catalog in the order
`Object.entries` lists it (ascending barcode) and kept when the lower-cased
name includes the lower-cased term: no candidate leaves the transaction
unchanged; one candidate is added as by `addItemToCart`; with several, an
answer whose `parseInt` value is a number `k` from 1 to their count adds the
`k`-th, and any other answer, a cancelled dialog included, leaves the
transaction unchanged. -/
theorem searchProduct_outcome (toLowerCase : String → String) (t : Transaction)
    (term : String) (selection : Option String) :
    foundProducts toLowerCase term =
      ([("123456789", { name := "Coffee Mug", price := 12.99 }),
        ("456789123", { name := "Notebook", price := 8.50 }),
        ("789123456", { name := "Pen", price := 2.99 }),
        ("987654321", { name := "T-Shirt", price := 24.99 })] :
          List (String × CatalogEntry)).filter
        (fun kv => includes (toLowerCase kv.2.name) (toLowerCase term)) ∧
    (foundProducts toLowerCase term = [] →
      searchProduct toLowerCase t term selection = t) ∧
    (∀ c, foundProducts toLowerCase term = [c] →
      searchProduct toLowerCase t term selection = addItemToCart t c.1 c.2.toProduct) ∧
    (1 < (foundProducts toLowerCase term).length →
      ∀ k : ℕ, 1 ≤ k → k ≤ (foundProducts toLowerCase term).length →
        parseInt selection = .fin k →
        ∀ c, (foundProducts toLowerCase term)[k - 1]? = some c →
          searchProduct toLowerCase t term selection = addItemToCart t c.1 c.2.toProduct) ∧
    (1 < (foundProducts toLowerCase term).length →
      (¬ ∃ k : ℕ, 1 ≤ k ∧ k ≤ (foundProducts toLowerCase term).length ∧
          parseInt selection = .fin k) →
        searchProduct toLowerCase t term selection = t) ∧
    (1 < (foundProducts toLowerCase term).length →
      searchProduct toLowerCase t term none = t) := by
  refine ⟨?_, ?_, ?_, ?_, ?_, ?_⟩
  · unfold foundProducts
    rw [objectEntries_productDatabase]
  · intro h
    simp [searchProduct, h]
  · intro c h
    simp [searchProduct, h]
  · intro hlen k hk1 hkn hp c hc
    have hne : (foundProducts toLowerCase term).length ≠ 1 := by omega
    simp only [searchProduct, hne, if_false, gt_iff_lt, hlen, if_true]
    exact showProductSelection_of_index t _ selection k hk1 hkn hp c hc
  · intro hlen hno
    have hne : (foundProducts toLowerCase term).length ≠ 1 := by omega
    simp only [searchProduct, hne, if_false, gt_iff_lt, hlen, if_true]
    exact showProductSelection_of_invalid t _ selection hno
  · intro hlen
    have hne : (foundProducts toLowerCase term).length ≠ 1 := by omega
    simp only [searchProduct, hne, if_false, gt_iff_lt, hlen, if_true]
    apply showProductSelection_of_invalid
    rintro ⟨k, _, _, hk⟩
    have hnan : parseInt none = .nan := by rfl
    rw [hnan] at hk
    cases hk

/-! ## Order of scans -/

theorem JSNum.plus_comm (a b : JSNum) : a.add b = b.add a := by
  cases a <;> cases b <;> simp [JSNum.add, add_comm]

theorem JSNum.plus_assoc (a b c : JSNum) : (a.add b).add c = a.add (b.add c) := by
  cases a <;> cases b <;> cases c <;> simp [JSNum.add, add_assoc]

theorem lineStep_right_comm (z : JSNum) (x y : Item) :
    lineStep (lineStep z x) y = lineStep (lineStep z y) x := by
  simp only [lineStep]
  rw [JSNum.plus_assoc, JSNum.plus_assoc, JSNum.plus_comm (x.price.mul _)]

theorem subtotalOf_perm {l₁ l₂ : List Item} (h : l₁.Perm l₂) : subtotalOf l₁ = subtotalOf l₂ :=
  h.foldl_eq' (fun x _ y _ z => lineStep_right_comm z x y) _

theorem fresh_eq_of_perm {x y : Transaction} (hx : Fresh x) (hy : Fresh y)
    (h : x.items.Perm y.items) :
    x.subtotal = y.subtotal ∧ x.tax = y.tax ∧ x.total = y.total := by
  obtain ⟨hx1, hx2, hx3⟩ := hx
  obtain ⟨hy1, hy2, hy3⟩ := hy
  have hs : x.subtotal = y.subtotal := by rw [hx1, hy1, subtotalOf_perm h]
  have ht : x.tax = y.tax := by rw [hx2, hy2, hs]
  exact ⟨hs, ht, by rw [hx3, hy3, hs, ht]⟩

theorem addItemToCart_fresh (t : Transaction) (b : String) (p : Product) :
    Fresh (addItemToCart t b p) := CartOp.apply_fresh t (.addItemToCart b p)

theorem mem_barcodes_iff (items : List Item) (b : String) :
    b ∈ items.map Item.barcode ↔ ∃ x ∈ items, x.barcode = b := by
  simp [List.mem_map]

theorem addItemToCart_present_iff (t : Transaction) (a b : String) (p : Product) (hab : a ≠ b) :
    (∃ x ∈ (addItemToCart t b p).items, x.barcode = a) ↔ ∃ x ∈ t.items, x.barcode = a := by
  rw [← mem_barcodes_iff, ← mem_barcodes_iff]
  by_cases hb : ∃ x ∈ t.items, x.barcode = b
  · rw [addItemToCart_items_present t b p hb, bumpFirst_barcodes]
  · have habs : ∀ x ∈ t.items, x.barcode ≠ b := fun x hx hxb => hb ⟨x, hx, hxb⟩
    rw [addItemToCart_items_absent t b p habs]
    simp [hab]

theorem bumpFirst_comm (a b : String) (items : List Item) (hab : a ≠ b) :
    bumpFirst a (bumpFirst b items) = bumpFirst b (bumpFirst a items) := by
  induction items with
  | nil => rfl
  | cons x rest ih =>
    by_cases hxa : x.barcode = a
    · have hxb : x.barcode ≠ b := fun h => hab (hxa.symm.trans h)
      simp [bumpFirst, hxa, hxb, hab]
    · by_cases hxb : x.barcode = b
      · have hba : ¬ b = a := fun h => hab h.symm
        simp [bumpFirst, hxa, hxb, hba]
      · simp [bumpFirst, hxa, hxb, ih]

theorem bumpFirst_append_of_present (a : String) (items extra : List Item)
    (h : ∃ x ∈ items, x.barcode = a) :
    bumpFirst a (items ++ extra) = bumpFirst a items ++ extra := by
  obtain ⟨pre, it, post, hsplit, hit, hpre⟩ := exists_first_with_barcode a items h
  rw [hsplit, List.append_assoc, List.cons_append, bumpFirst_split a pre it _ hpre hit,
    bumpFirst_split a pre it _ hpre hit]
  simp

theorem addItemToCart_swap_perm (t : Transaction) (a b : String) (pa pb : Product)
    (hsame : a = b → pa = pb) :
    (addItemToCart (addItemToCart t a pa) b pb).items.Perm
      (addItemToCart (addItemToCart t b pb) a pa).items := by
  by_cases hab : a = b
  · subst hab
    rw [hsame rfl]
  · have hba : b ≠ a := fun h => hab h.symm
    by_cases ha : ∃ x ∈ t.items, x.barcode = a <;> by_cases hb : ∃ x ∈ t.items, x.barcode = b
    · have hb1 := (addItemToCart_present_iff t b a pa hba).2 hb
      have ha1 := (addItemToCart_present_iff t a b pb hab).2 ha
      rw [addItemToCart_items_present _ b pb hb1, addItemToCart_items_present _ a pa ha1,
        addItemToCart_items_present t a pa ha, addItemToCart_items_present t b pb hb,
        bumpFirst_comm a b _ hab]
    · have hbabs : ∀ x ∈ t.items, x.barcode ≠ b := fun x hx hxb => hb ⟨x, hx, hxb⟩
      have hb1 : ∀ x ∈ (addItemToCart t a pa).items, x.barcode ≠ b :=
        fun x hx hxb => hb ((addItemToCart_present_iff t b a pa hba).1 ⟨x, hx, hxb⟩)
      have ha1 := (addItemToCart_present_iff t a b pb hab).2 ha
      rw [addItemToCart_items_absent _ b pb hb1, addItemToCart_items_present _ a pa ha1,
        addItemToCart_items_present t a pa ha, addItemToCart_items_absent t b pb hbabs,
        bumpFirst_append_of_present a _ _ ha]
    · have haabs : ∀ x ∈ t.items, x.barcode ≠ a := fun x hx hxa => ha ⟨x, hx, hxa⟩
      have ha1 : ∀ x ∈ (addItemToCart t b pb).items, x.barcode ≠ a :=
        fun x hx hxa => ha ((addItemToCart_present_iff t a b pb hab).1 ⟨x, hx, hxa⟩)
      have hb1 := (addItemToCart_present_iff t b a pa hba).2 hb
      rw [addItemToCart_items_present _ b pb hb1, addItemToCart_items_absent _ a pa ha1,
        addItemToCart_items_absent t a pa haabs, addItemToCart_items_present t b pb hb,
        bumpFirst_append_of_present b _ _ hb]
    · have haabs : ∀ x ∈ t.items, x.barcode ≠ a := fun x hx hxa => ha ⟨x, hx, hxa⟩
      have hbabs : ∀ x ∈ t.items, x.barcode ≠ b := fun x hx hxb => hb ⟨x, hx, hxb⟩
      have ha1 : ∀ x ∈ (addItemToCart t b pb).items, x.barcode ≠ a :=
        fun x hx hxa => ha ((addItemToCart_present_iff t a b pb hab).1 ⟨x, hx, hxa⟩)
      have hb1 : ∀ x ∈ (addItemToCart t a pa).items, x.barcode ≠ b :=
        fun x hx hxb => hb ((addItemToCart_present_iff t b a pa hba).1 ⟨x, hx, hxb⟩)
      rw [addItemToCart_items_absent _ b pb hb1, addItemToCart_items_absent _ a pa ha1,
        addItemToCart_items_absent t a pa haabs, addItemToCart_items_absent t b pb hbabs,
        List.append_assoc, List.append_assoc]
      exact List.Perm.append_left _ (List.Perm.swap _ _ _)

theorem penCart_eq :
    penCart =
      { items := [{ barcode := "789123456", name := some "Pen", price := .fin 2.99, quantity := 1 }],
        subtotal := .fin 2.99, tax := .fin 0.25415, total := .fin 3.24415 } := by
  simp [penCart, reach, CartOp.apply, addItemToCart, currentTransaction, calculateTotals,
    subtotalOf, lineStep, JSNum.add, JSNum.mul, pen, taxRate]
  norm_num

theorem cardPendingSession_eq :
    cardPendingSession = { transaction := penCart, pending := [{ delay := 2000, total := .fin 3.24415 }] } := by
  have h : cardPendingSession =
      processPayment { transaction := penCart, pending := [] } "card" none := rfl
  rw [h, penCart_eq]
  simp [processPayment, processCardPayment]

/-- In exact arithmetic, for two catalog barcodes, scanning `a` then `b`
gives the same subtotal, tax and total as scanning `b` then `a`, from any
transaction; from the empty cart the subtotal is the sum of the two catalog
prices. -/
theorem processBarcode_order_irrelevant_exact (t : Transaction) (a b : String)
    (ea eb : CatalogEntry) (ha : assoc a productDatabase = some ea)
    (hb : assoc b productDatabase = some eb) :
    (processBarcode (processBarcode t a) b).subtotal =
      (processBarcode (processBarcode t b) a).subtotal ∧
    (processBarcode (processBarcode t a) b).tax =
      (processBarcode (processBarcode t b) a).tax ∧
    (processBarcode (processBarcode t a) b).total =
      (processBarcode (processBarcode t b) a).total ∧
    (processBarcode (processBarcode currentTransaction a) b).subtotal =
      .fin (ea.price + eb.price) := by
  have hsame : a = b → ea.toProduct = eb.toProduct := by
    intro hab
    subst hab
    rw [ha] at hb
    cases hb
    rfl
  simp only [processBarcode_of_catalog_key _ a ea ha, processBarcode_of_catalog_key _ b eb hb]
  obtain ⟨h1, h2, h3⟩ := fresh_eq_of_perm (addItemToCart_fresh (addItemToCart t a ea.toProduct) b eb.toProduct)
    (addItemToCart_fresh (addItemToCart t b eb.toProduct) a ea.toProduct)
    (addItemToCart_swap_perm t a b ea.toProduct eb.toProduct hsame)
  refine ⟨h1, h2, h3, ?_⟩
  by_cases hab : a = b
  · subst hab
    rw [ha] at hb
    cases hb
    simp [addItemToCart, currentTransaction, calculateTotals, bumpFirst, subtotalOf, lineStep,
      JSNum.add, JSNum.mul, CatalogEntry.toProduct]
    ring
  · simp [addItemToCart, currentTransaction, calculateTotals, bumpFirst, subtotalOf, lineStep,
      JSNum.add, JSNum.mul, CatalogEntry.toProduct, hab]

/-- C9 as stated fails: after the Pen is scanned and a card settlement is
started, a completion is pending, and `addItemToCart` still appends the mug
to the items. -/
theorem pending_settlement_allows_edits :
    ¬ ∀ (events : List Event) (b : String) (p : Product),
        (Session.run events).pending ≠ [] →
        ((Session.run events).step (.addItemToCart b p)).transaction.items =
          (Session.run events).transaction.items := by
  intro h
  have hrun : Session.run [.addItemToCart "789123456" pen, .processPayment "card" none] =
      cardPendingSession := rfl
  have h1 := h [.addItemToCart "789123456" pen, .processPayment "card" none] "123456789" coffeeMug
  rw [hrun, cardPendingSession_eq] at h1
  have h2 := h1 (by simp)
  rw [penCart_eq] at h2
  simp [Session.step, addItemToCart, calculateTotals, coffeeMug] at h2

/-- C9 as amended: a pending settlement puts no restriction on the cart.
In every state `addItemToCart` and `removeItem` change the transaction as
they do with nothing pending and keep the pending completions; a card or
mobile payment on a non-empty cart keeps the transaction and schedules one
completion holding the current total; a pending completion that fires
leaves the empty transaction, whatever the items were, and is removed. -/
theorem session_step_effects (s : Session) :
    (∀ b p, s.step (.addItemToCart b p) =
      { transaction := addItemToCart s.transaction b p, pending := s.pending }) ∧
    (∀ b, s.step (.removeItem b) =
      { transaction := removeItem s.transaction b, pending := s.pending }) ∧
    (∀ answer, s.transaction.items ≠ [] →
      s.step (.processPayment "card" answer) =
        { transaction := s.transaction,
          pending := s.pending ++ [{ delay := 2000, total := s.transaction.total }] }) ∧
    (∀ answer, s.transaction.items ≠ [] →
      s.step (.processPayment "mobile" answer) =
        { transaction := s.transaction,
          pending := s.pending ++ [{ delay := 3000, total := s.transaction.total }] }) ∧
    (∀ i timer, s.pending[i]? = some timer →
      s.step (.timeout i) =
        { transaction := { items := [], subtotal := .fin 0, tax := .fin 0, total := .fin 0 },
          pending := s.pending.eraseIdx i }) := by
  refine ⟨fun _ _ => rfl, fun _ => rfl, ?_, ?_, ?_⟩
  · intro answer hne
    have hlen : s.transaction.items.length ≠ 0 := by
      intro h0; exact hne (List.length_eq_zero.1 h0)
    have hcash : ("card" : String) ≠ "cash" := by decide
    simp [Session.step, processPayment, hlen, hcash, processCardPayment]
  · intro answer hne
    have hlen : s.transaction.items.length ≠ 0 := by
      intro h0; exact hne (List.length_eq_zero.1 h0)
    have hcash : ("mobile" : String) ≠ "cash" := by decide
    have hcard : ("mobile" : String) ≠ "card" := by decide
    simp [Session.step, processPayment, hlen, hcash, hcard, processMobilePayment]
  · intro i timer hi
    simp [Session.step, fireTimer, hi, completeTransaction, clearTransaction]

/-- C9 as amended, in the state with the Pen in the cart and a card
settlement pending: a second settlement can be started, and the pending
completion fires and empties the cart. -/
theorem session_step_effects_witness :
    cardPendingSession.step (.processPayment "card" none) =
      { transaction := cardPendingSession.transaction,
        pending := cardPendingSession.pending ++
          [{ delay := 2000, total := cardPendingSession.transaction.total }] } ∧
    cardPendingSession.step (.processPayment "mobile" none) =
      { transaction := cardPendingSession.transaction,
        pending := cardPendingSession.pending ++
          [{ delay := 3000, total := cardPendingSession.transaction.total }] } ∧
    cardPendingSession.step (.timeout 0) =
      { transaction := { items := [], subtotal := .fin 0, tax := .fin 0, total := .fin 0 },
        pending := cardPendingSession.pending.eraseIdx 0 } :=
  ⟨(session_step_effects cardPendingSession).2.2.1 none
      (by rw [cardPendingSession_eq, penCart_eq]; simp),
    (session_step_effects cardPendingSession).2.2.2.1 none
      (by rw [cardPendingSession_eq, penCart_eq]; simp),
    (session_step_effects cardPendingSession).2.2.2.2 0 { delay := 2000, total := .fin 3.24415 }
      (by rw [cardPendingSession_eq]; rfl)⟩

theorem parseFloat_shown : parseFloat "3.24" = .fin 3.24 := by decide!

theorem toFixed2_pen_total : toFixed2 (.fin 3.24415) = some "3.24" := by decide!

/-- C10: the cart holding one Pen is reachable and not empty; its total is
3.24415, shown by `toFixed(2)` as 3.24; a cash tender of exactly the text
shown is refused by `processCashPayment`, through `processPayment` too, and
the cart is kept. -/
theorem displayed_total_tender_rejected :
    ∃ (ops : List CartOp) (shown : String),
      (reach ops).items ≠ [] ∧
      (reach ops).total = .fin 3.24415 ∧
      toFixed2 (reach ops).total = some shown ∧
      shown = "3.24" ∧
      processCashPayment (reach ops) (reach ops).total (some shown) = (reach ops, .failure) ∧
      processPayment { transaction := reach ops, pending := [] } "cash" (some shown) =
        { transaction := reach ops, pending := [] } := by
  have hreach : reach [.addItemToCart "789123456" pen] = penCart := rfl
  have hcash : processCashPayment penCart (.fin 3.24415) (some "3.24") = (penCart, .failure) := by
    simp only [processCashPayment, parseFloat_shown, JSNum.ge]
    norm_num
  refine ⟨[.addItemToCart "789123456" pen], "3.24", ?_, ?_, ?_, rfl, ?_, ?_⟩
  · rw [hreach, penCart_eq]; simp
  · rw [hreach, penCart_eq]
  · rw [hreach, penCart_eq]; exact toFixed2_pen_total
  · rw [hreach]
    have htotal : penCart.total = .fin 3.24415 := by rw [penCart_eq]
    rw [htotal]; exact hcash
  · rw [hreach]
    have htotal : penCart.total = .fin 3.24415 := by rw [penCart_eq]
    have hlen : penCart.items.length ≠ 0 := by rw [penCart_eq]; simp
    simp [processPayment, hlen, htotal, hcash]

theorem foundProducts_t :
    foundProducts asciiLowerCase "t" =
      [("456789123", { name := "Notebook", price := 8.50 }),
       ("987654321", { name := "T-Shirt", price := 24.99 })] := by
  rfl

theorem foundProducts_shirt :
    foundProducts asciiLowerCase "SHIRT" =
      [("987654321", { name := "T-Shirt", price := 24.99 })] := by
  rfl

theorem foundProducts_none : foundProducts asciiLowerCase "zzz" = [] := by
  rfl

theorem parseInt_two : parseInt (some "2") = .fin ((2 : ℕ) : ℚ) := by
  simp [parseInt, parseIntChars, parseIntMagnitude, isStrWhiteSpaceChar, isDecimalDigit,
    digitsValue, hexDigitValue]

theorem parseInt_seven : parseInt (some "7") = .fin 7 := by
  simp [parseInt, parseIntChars, parseIntMagnitude, isStrWhiteSpaceChar, isDecimalDigit,
    digitsValue, hexDigitValue]

/-- C7 on the catalog: `zzz` finds nothing; `SHIRT` finds the T-Shirt
alone; `t` finds the Notebook and the T-Shirt, and then the answer `2` adds
the T-Shirt while the answer `7` adds nothing. -/
theorem searchProduct_outcome_witness :
    searchProduct asciiLowerCase scenarioCart "zzz" none = scenarioCart ∧
    searchProduct asciiLowerCase scenarioCart "SHIRT" none =
      addItemToCart scenarioCart "987654321" { name := some "T-Shirt", price := .fin 24.99 } ∧
    searchProduct asciiLowerCase scenarioCart "t" (some "2") =
      addItemToCart scenarioCart "987654321" { name := some "T-Shirt", price := .fin 24.99 } ∧
    searchProduct asciiLowerCase scenarioCart "t" (some "7") = scenarioCart ∧
    searchProduct asciiLowerCase scenarioCart "t" none = scenarioCart :=
  ⟨(searchProduct_outcome asciiLowerCase scenarioCart "zzz" none).2.1 foundProducts_none,
    (searchProduct_outcome asciiLowerCase scenarioCart "SHIRT" none).2.2.1
      ("987654321", { name := "T-Shirt", price := 24.99 }) foundProducts_shirt,
    (searchProduct_outcome asciiLowerCase scenarioCart "t" (some "2")).2.2.2.1
      (by rw [foundProducts_t]; decide) 2 (by decide) (by rw [foundProducts_t]; decide)
      parseInt_two ("987654321", { name := "T-Shirt", price := 24.99 })
      (by rw [foundProducts_t]; rfl),
    (searchProduct_outcome asciiLowerCase scenarioCart "t" (some "7")).2.2.2.2.1
      (by rw [foundProducts_t]; decide)
      (by
        rw [foundProducts_t, parseInt_seven]
        rintro ⟨k, _, hk2, hk⟩
        have hk7 : (7 : ℚ) = (k : ℚ) := by injection hk
        have hk7nat : k = 7 := by exact_mod_cast hk7.symm
        subst hk7nat
        simp at hk2),
    (searchProduct_outcome asciiLowerCase scenarioCart "t" none).2.2.2.2.2
      (by rw [foundProducts_t]; decide)⟩

/-! ## Order of scans in binary64 -/

theorem assoc_mem {α : Type} (key : String) (l : List (String × α)) (v : α)
    (h : assoc key l = some v) : (key, v) ∈ l := by
  induction l with
  | nil => cases h
  | cons kv rest ih =>
    obtain ⟨k, w⟩ := kv
    unfold assoc at h
    split at h
    · rename_i hk
      cases h
      rw [hk]
      exact List.mem_cons_self _ _
    · exact List.mem_cons_of_mem _ (ih h)

theorem addItemToCart_items_congr (t u : Transaction) (b : String) (p : Product)
    (h : t.items = u.items) :
    (addItemToCart t b p).items = (addItemToCart u b p).items := by
  unfold addItemToCart
  rw [h]
  split <;> simp [calculateTotals, h]

theorem binary64_addItemToCart_eq (t : Transaction) (b : String) (p : Product) :
    Binary64.addItemToCart t b p =
      Binary64.calculateTotals
        { items := (WUPOS.addItemToCart t b p).items, subtotal := .nan, tax := .nan,
          total := .nan } := by
  unfold Binary64.addItemToCart WUPOS.addItemToCart
  split <;> rfl

theorem binary64_addItemToCart_items (t : Transaction) (b : String) (p : Product) :
    (Binary64.addItemToCart t b p).items = (WUPOS.addItemToCart t b p).items := by
  rw [binary64_addItemToCart_eq]
  rfl

theorem binary64_addItemToCart_twice_items (t : Transaction) (a b : String) (pa pb : Product) :
    (Binary64.addItemToCart (Binary64.addItemToCart t a pa) b pb).items =
      (WUPOS.addItemToCart (WUPOS.addItemToCart t a pa) b pb).items := by
  rw [binary64_addItemToCart_items]
  exact addItemToCart_items_congr _ _ b pb (binary64_addItemToCart_items t a pa)

theorem addItemToCart_swap_items_eq (t : Transaction) (a b : String) (pa pb : Product)
    (hsame : a = b → pa = pb)
    (h : a = b ∨ (∃ x ∈ t.items, x.barcode = a) ∨ (∃ x ∈ t.items, x.barcode = b)) :
    (addItemToCart (addItemToCart t a pa) b pb).items =
      (addItemToCart (addItemToCart t b pb) a pa).items := by
  by_cases hab : a = b
  · subst hab
    rw [hsame rfl]
  · have hba : b ≠ a := fun h => hab h.symm
    by_cases ha : ∃ x ∈ t.items, x.barcode = a <;> by_cases hb : ∃ x ∈ t.items, x.barcode = b
    · have hb1 := (addItemToCart_present_iff t b a pa hba).2 hb
      have ha1 := (addItemToCart_present_iff t a b pb hab).2 ha
      rw [addItemToCart_items_present _ b pb hb1, addItemToCart_items_present _ a pa ha1,
        addItemToCart_items_present t a pa ha, addItemToCart_items_present t b pb hb,
        bumpFirst_comm a b _ hab]
    · have hbabs : ∀ x ∈ t.items, x.barcode ≠ b := fun x hx hxb => hb ⟨x, hx, hxb⟩
      have hb1 : ∀ x ∈ (addItemToCart t a pa).items, x.barcode ≠ b :=
        fun x hx hxb => hb ((addItemToCart_present_iff t b a pa hba).1 ⟨x, hx, hxb⟩)
      have ha1 := (addItemToCart_present_iff t a b pb hab).2 ha
      rw [addItemToCart_items_absent _ b pb hb1, addItemToCart_items_present _ a pa ha1,
        addItemToCart_items_present t a pa ha, addItemToCart_items_absent t b pb hbabs,
        bumpFirst_append_of_present a _ _ ha]
    · have haabs : ∀ x ∈ t.items, x.barcode ≠ a := fun x hx hxa => ha ⟨x, hx, hxa⟩
      have ha1 : ∀ x ∈ (addItemToCart t b pb).items, x.barcode ≠ a :=
        fun x hx hxa => ha ((addItemToCart_present_iff t a b pb hab).1 ⟨x, hx, hxa⟩)
      have hb1 := (addItemToCart_present_iff t b a pa hba).2 hb
      rw [addItemToCart_items_present _ b pb hb1, addItemToCart_items_absent _ a pa ha1,
        addItemToCart_items_absent t a pa haabs, addItemToCart_items_present t b pb hb,
        bumpFirst_append_of_present b _ _ hb]
    · rcases h with h | h | h
      · exact absurd h hab
      · exact absurd h ha
      · exact absurd h hb

theorem binary64_processBarcode_of_catalog_key (t : Transaction) (id : String)
    (e : CatalogEntry) (h : assoc id productDatabase = some e) :
    Binary64.processBarcode t id =
      Binary64.addItemToCart t id { name := some e.name, price := round64 e.price } := by
  simp [Binary64.processBarcode, Binary64.productDatabaseGet, h]

set_option maxRecDepth 100000 in
theorem binary64_from_empty_cart :
    ∀ x ∈ productDatabase, ∀ y ∈ productDatabase,
      (Binary64.processBarcode (Binary64.processBarcode currentTransaction x.1) y.1).subtotal =
        (Binary64.processBarcode (Binary64.processBarcode currentTransaction y.1) x.1).subtotal ∧
      (Binary64.processBarcode (Binary64.processBarcode currentTransaction x.1) y.1).tax =
        (Binary64.processBarcode (Binary64.processBarcode currentTransaction y.1) x.1).tax ∧
      (Binary64.processBarcode (Binary64.processBarcode currentTransaction x.1) y.1).total =
        (Binary64.processBarcode (Binary64.processBarcode currentTransaction y.1) x.1).total ∧
      (Binary64.processBarcode (Binary64.processBarcode currentTransaction x.1) y.1).subtotal =
        (round64 x.2.price).add64 (round64 y.2.price) := by
  decide!

theorem binary64_mugCart_items :
    Binary64.mugCart.items =
      [{ barcode := "123456789", name := some "Coffee Mug", price := round64 12.99,
         quantity := 1 }] := by
  rfl

/-- C8 as stated fails on binary64.  From the cart that holds one Coffee
Mug, scanning the T-Shirt and then the Notebook gives subtotal
`6541478458755645 / 2^47` (printed 46.48), while scanning the Notebook and
then the T-Shirt gives `3270739229377823 / 2^46` (printed
46.480000000000004); tax and total differ as well. -/
theorem binary64_scan_order_changes_totals :
    Binary64.mugCart = Binary64.processBarcode currentTransaction "123456789" ∧
    (Binary64.processBarcode (Binary64.processBarcode Binary64.mugCart "987654321")
        "456789123").subtotal = .fin (6541478458755645 / 2 ^ 47) ∧
    (Binary64.processBarcode (Binary64.processBarcode Binary64.mugCart "456789123")
        "987654321").subtotal = .fin (3270739229377823 / 2 ^ 46) ∧
    (Binary64.processBarcode (Binary64.processBarcode Binary64.mugCart "987654321")
        "456789123").subtotal ≠
      (Binary64.processBarcode (Binary64.processBarcode Binary64.mugCart "456789123")
        "987654321").subtotal ∧
    (Binary64.processBarcode (Binary64.processBarcode Binary64.mugCart "987654321")
        "456789123").tax ≠
      (Binary64.processBarcode (Binary64.processBarcode Binary64.mugCart "456789123")
        "987654321").tax ∧
    (Binary64.processBarcode (Binary64.processBarcode Binary64.mugCart "987654321")
        "456789123").total ≠
      (Binary64.processBarcode (Binary64.processBarcode Binary64.mugCart "456789123")
        "987654321").total := by
  refine ⟨rfl, ?_, ?_, ?_, ?_, ?_⟩ <;> decide!

/-- C8 as amended, on binary64: for two catalog barcodes and any
transaction, scanning `a` then `b` leaves the same line items as scanning
`b` then `a`, up to their order; when the two barcodes are equal or one of
them is already in the cart the two orders leave the same transaction,
totals included; and from the empty cart the two orders give the same
subtotal, tax and total, the subtotal being the binary64 sum of the two
catalog prices. -/
theorem processBarcode_order_binary64 (t : Transaction) (a b : String)
    (ea eb : CatalogEntry) (ha : assoc a productDatabase = some ea)
    (hb : assoc b productDatabase = some eb) :
    (Binary64.processBarcode (Binary64.processBarcode t a) b).items.Perm
      (Binary64.processBarcode (Binary64.processBarcode t b) a).items ∧
    ((a = b ∨ (∃ x ∈ t.items, x.barcode = a) ∨ (∃ x ∈ t.items, x.barcode = b)) →
      Binary64.processBarcode (Binary64.processBarcode t a) b =
        Binary64.processBarcode (Binary64.processBarcode t b) a) ∧
    (Binary64.processBarcode (Binary64.processBarcode currentTransaction a) b).subtotal =
      (Binary64.processBarcode (Binary64.processBarcode currentTransaction b) a).subtotal ∧
    (Binary64.processBarcode (Binary64.processBarcode currentTransaction a) b).tax =
      (Binary64.processBarcode (Binary64.processBarcode currentTransaction b) a).tax ∧
    (Binary64.processBarcode (Binary64.processBarcode currentTransaction a) b).total =
      (Binary64.processBarcode (Binary64.processBarcode currentTransaction b) a).total ∧
    (Binary64.processBarcode (Binary64.processBarcode currentTransaction a) b).subtotal =
      (round64 ea.price).add64 (round64 eb.price) := by
  have hsame : a = b →
      ({ name := some ea.name, price := round64 ea.price } : Product) =
        { name := some eb.name, price := round64 eb.price } := by
    intro hab
    subst hab
    rw [ha] at hb
    cases hb
    rfl
  have hempty := binary64_from_empty_cart (a, ea) (assoc_mem a _ ea ha) (b, eb)
    (assoc_mem b _ eb hb)
  refine ⟨?_, ?_, hempty.1, hempty.2.1, hempty.2.2.1, hempty.2.2.2⟩
  · simp only [binary64_processBarcode_of_catalog_key _ a ea ha,
      binary64_processBarcode_of_catalog_key _ b eb hb]
    rw [binary64_addItemToCart_twice_items, binary64_addItemToCart_twice_items]
    exact addItemToCart_swap_perm t a b _ _ hsame
  · intro h
    simp only [binary64_processBarcode_of_catalog_key _ a ea ha,
      binary64_processBarcode_of_catalog_key _ b eb hb]
    have hab : ∀ (c d : String) (pc pd : Product),
        Binary64.addItemToCart (Binary64.addItemToCart t c pc) d pd =
          Binary64.calculateTotals
            { items := (addItemToCart (addItemToCart t c pc) d pd).items, subtotal := .nan,
              tax := .nan, total := .nan } := by
      intro c d pc pd
      rw [binary64_addItemToCart_eq (Binary64.addItemToCart t c pc) d pd,
        addItemToCart_items_congr _ _ d pd (binary64_addItemToCart_items t c pc)]
    rw [hab a b, hab b a, addItemToCart_swap_items_eq t a b _ _ hsame h]

/-- C8 as amended, at the cart holding one Coffee Mug: a further Coffee Mug
and a Notebook may be scanned in either order, here one barcode is already
in the cart. -/
theorem processBarcode_order_binary64_witness :
    Binary64.processBarcode (Binary64.processBarcode Binary64.mugCart "123456789") "456789123" =
      Binary64.processBarcode (Binary64.processBarcode Binary64.mugCart "456789123")
        "123456789" :=
  (processBarcode_order_binary64 Binary64.mugCart "123456789" "456789123"
      { name := "Coffee Mug", price := 12.99 } { name := "Notebook", price := 8.50 } rfl rfl).2.1
    (Or.inr (Or.inl
      ⟨{ barcode := "123456789", name := some "Coffee Mug", price := round64 12.99,
         quantity := 1 },
        by rw [binary64_mugCart_items]; exact List.mem_singleton.2 rfl, rfl⟩))

end WUPOS
